import Mathlib

/-!
Shallow embedding of the CampusConnect portal (`campus_connect.py`).

Python strings are modelled as `List Char`, Python `set(...)` of strings as
`Finset (List Char)`, the SQLite-backed tables as Lean lists held in a
`DBState` record, and each user interaction (apply, faculty decision,
opportunity posting, preference save) as a pure state-transforming function.
Machine-generated values (UUID fragments, timestamps, autoincrement ids) enter
the operations as explicit parameters, and the external bcrypt verifier is an
explicit function parameter.
-/

namespace CampusConnect

/-- Python strings are modelled as lists of characters. -/
abbrev Str := List Char

/-- Python `str.lower()` (basic-latin case folding, as in the source data). -/
def lower (s : Str) : Str := s.map Char.toLower

/-- Helper for `splitComma`: returns the chunk up to the first comma and the
remaining chunks, mirroring Python `str.split(",")` which keeps empty chunks. -/
def splitCommaAux : Str → Str × List Str
  | [] => ([], [])
  | c :: cs =>
    let r := splitCommaAux cs
    if c = ',' then ([], r.1 :: r.2) else (c :: r.1, r.2)

/-- Python `s.split(",")`: always returns at least one (possibly empty) chunk. -/
def splitComma (s : Str) : List Str :=
  (splitCommaAux s).1 :: (splitCommaAux s).2

/-- Python `set(s.split(","))`. -/
def tokenSet (s : Str) : Finset Str := (splitComma s).toFinset

/-- Python `needle in hay` prefix helper: does `hay` start with `needle`? -/
def startsWith : Str → Str → Bool
  | [], _ => true
  | _ :: _, [] => false
  | a :: as, b :: bs => a == b && startsWith as bs

/-- Python substring test `needle in hay`. -/
def containsSub (needle hay : Str) : Bool :=
  match hay with
  | [] => needle.isEmpty
  | _ :: rest => startsWith needle hay || containsSub needle rest

/-- The `Role` enum of the source. -/
inductive Role
  | student
  | placementCell
  | facultyMentor
  | employer
deriving DecidableEq

/-- The `ApplicationStatus` enum of the source. -/
inductive ApplicationStatus
  | applied
  | approved
  | rejected
deriving DecidableEq

/-- The `User` table row. `id` is the primary key of a stored row. -/
structure User where
  id : Nat
  name : Str
  email : Str
  role : Role
  department : Option Str := none
  hashed_password : Str
  location_pref : Option Str := none
  min_stipend_pref : Option Int := none
  max_stipend_pref : Option Int := none
  placement_conversion_pref : Option Bool := some false
  skills : Option Str := none
deriving DecidableEq

/-- The `Opportunity` table row. `created_at` is the insertion timestamp and
`application_deadline` an ordinal calendar date. -/
structure Opportunity where
  id : Nat
  uid : Str
  title : Str
  company : Str
  description : Str
  required_skills : Str
  department : Str
  stipend : Int
  duration : Str
  location : Str
  placement_conversion : Bool := false
  application_deadline : Option Nat := none
  posted_by : Option Nat := none
  created_at : Nat := 0
deriving DecidableEq

/-- The string literal `"pending"` used for `mentor_status`. -/
def pendingStr : Str := "pending".toList

/-- The string literal `"approved"` used for `mentor_status`. -/
def approvedStr : Str := "approved".toList

/-- The string literal `"rejected"` used for `mentor_status`. -/
def rejectedStr : Str := "rejected".toList

/-- The `Application` table row; `mentor_status` is a raw string column with
default `"pending"`, as in the source. -/
structure Application where
  id : Option Nat := none
  uid : Str
  student_id : Nat
  opportunity_id : Nat
  status : ApplicationStatus := ApplicationStatus.applied
  mentor_status : Option Str := some pendingStr
  mentor_comments : Option Str := none
  applied_date : Nat := 0
deriving DecidableEq

/-- The three tables of the database. -/
structure DBState where
  users : List User
  opps : List Opportunity
  apps : List Application
deriving DecidableEq

/-- Location predicate of the recommendation loop:
`if user.location_pref and user.location_pref.lower() in opp.location.lower()`.
A `None` or empty preference string is falsy in Python. -/
def locationPoint (u : User) (opp : Opportunity) : Bool :=
  match u.location_pref with
  | none => false
  | some p => !p.isEmpty && containsSub (lower p) (lower opp.location)

/-- Minimum-stipend predicate:
`if user.min_stipend_pref and opp.stipend >= user.min_stipend_pref`.
A `None` or zero preference is falsy in Python. -/
def minStipendPoint (u : User) (opp : Opportunity) : Bool :=
  match u.min_stipend_pref with
  | none => false
  | some m => !(m == 0) && decide (m ≤ opp.stipend)

/-- Maximum-stipend predicate:
`if user.max_stipend_pref and opp.stipend <= user.max_stipend_pref`. -/
def maxStipendPoint (u : User) (opp : Opportunity) : Bool :=
  match u.max_stipend_pref with
  | none => false
  | some m => !(m == 0) && decide (opp.stipend ≤ m)

/-- Placement-conversion predicate:
`if user.placement_conversion_pref and opp.placement_conversion`. -/
def conversionPoint (u : User) (opp : Opportunity) : Bool :=
  u.placement_conversion_pref.getD false && opp.placement_conversion

/-- Python `set((user.skills or "").lower().split(","))`. -/
def studentSkills (u : User) : Finset Str := tokenSet (lower (u.skills.getD []))

/-- Python `set(opp.required_skills.lower().split(","))`. -/
def oppSkills (opp : Opportunity) : Finset Str := tokenSet (lower opp.required_skills)

/-- Python `skill_matches = len(student_skills & opp_skills)`. -/
def skillMatches (u : User) (opp : Opportunity) : Nat :=
  (studentSkills u ∩ oppSkills opp).card

/-- The sequential score accumulation of the recommendation loop
(`score = 0`, four guarded `score += 1`, then `score += skill_matches`). -/
def score (u : User) (opp : Opportunity) : Nat :=
  let s0 : Nat := 0
  let s1 := if locationPoint u opp then s0 + 1 else s0
  let s2 := if minStipendPoint u opp then s1 + 1 else s1
  let s3 := if maxStipendPoint u opp then s2 + 1 else s2
  let s4 := if conversionPoint u opp then s3 + 1 else s3
  s4 + skillMatches u opp

/-- One ranked entry: `(opp, score, skill_matches)`. -/
abbrev RankedEntry := Opportunity × Nat × Nat

/-- The `matches` list built by the loop: an entry is appended only when
`score > 0`, in the enumeration order of the opportunity listing. -/
def matchesFor (u : User) (opps : List Opportunity) : List RankedEntry :=
  opps.filterMap fun opp =>
    if 0 < score u opp then some (opp, score u opp, skillMatches u opp) else none

/-- Comparison used by `matches.sort(key=lambda x: x[1], reverse=True)`:
`a` may precede `b` when `a`'s total score is at least `b`'s. -/
def scoreGE (a b : RankedEntry) : Prop := b.2.1 ≤ a.2.1

instance : DecidableRel scoreGE := fun a b => Nat.decLe b.2.1 a.2.1

instance : IsTotal RankedEntry scoreGE := ⟨fun a b => Nat.le_total b.2.1 a.2.1⟩

instance : IsTrans RankedEntry scoreGE :=
  ⟨fun _ _ _ hab hbc => Nat.le_trans hbc hab⟩

/-- Python `list.sort(key=..., reverse=True)` is a stable descending sort;
it is modelled by stable insertion sort under `scoreGE`. -/
def recommend (u : User) (opps : List Opportunity) : List RankedEntry :=
  List.insertionSort scoreGE (matchesFor u opps)

/-- Result surfaced by the apply button. -/
inductive ApplyResult
  | applied
  | alreadyApplied
deriving DecidableEq

/-- The apply-button handler: look for an existing `Application` with the same
`(student_id, opportunity_id)`; warn if found, otherwise insert a new row with
a generated uid and timestamp (passed in as parameters). -/
def applyOp (st : DBState) (studentId oppId : Nat) (freshUid : Str) (now : Nat) :
    DBState × ApplyResult :=
  match st.apps.find? (fun a => a.student_id == studentId && a.opportunity_id == oppId) with
  | some _ => (st, ApplyResult.alreadyApplied)
  | none =>
    ({ st with
        apps := st.apps ++
          [{ uid := freshUid, student_id := studentId, opportunity_id := oppId,
             applied_date := now }] },
     ApplyResult.applied)

/-- Faculty decision on an application shown in the pending list. -/
inductive Decision
  | approve
  | reject
deriving DecidableEq

/-- Field update performed by the approve/reject button. -/
def decideApp (a : Application) : Decision → Application
  | Decision.approve =>
    { a with mentor_status := some approvedStr, status := ApplicationStatus.approved,
             mentor_comments := some ("Approved".toList) }
  | Decision.reject =>
    { a with mentor_status := some rejectedStr, status := ApplicationStatus.rejected,
             mentor_comments := some ("Rejected".toList) }

/-- The faculty dashboard queries applications with `mentor_status == "pending"`
and renders a decision button per such row; pressing the button keyed by
`appUid` updates that pending row. Rows outside the pending query are untouched. -/
def facultyDecide (st : DBState) (appUid : Str) (d : Decision) : DBState :=
  { st with
      apps := st.apps.map fun a =>
        if a.mentor_status == some pendingStr && a.uid == appUid then decideApp a d else a }

/-- Result surfaced by the post-opportunity form. -/
inductive PostResult
  | posted
  | validationFailure
deriving DecidableEq

/-- The post-opportunity form handler:
`if not (title and company and desc and skills and dept and loc)` warn,
otherwise insert the new row attributed to the poster, with generated id, uid
and timestamp passed in as parameters. -/
def postOpportunity (st : DBState) (posterId : Nat)
    (title company desc skills dept : Str) (stipend : Int) (dur loc : Str)
    (conv : Bool) (deadline : Option Nat)
    (freshId : Nat) (freshUid : Str) (now : Nat) : DBState × PostResult :=
  if !(!title.isEmpty && !company.isEmpty && !desc.isEmpty &&
       !skills.isEmpty && !dept.isEmpty && !loc.isEmpty) then
    (st, PostResult.validationFailure)
  else
    ({ st with
        opps := st.opps ++
          [{ id := freshId, uid := freshUid, title := title, company := company,
             description := desc, required_skills := skills, department := dept,
             stipend := stipend, duration := dur, location := loc,
             placement_conversion := conv, application_deadline := deadline,
             posted_by := some posterId, created_at := now }] },
     PostResult.posted)

/-- The save-preferences form handler: overwrite the five preference fields of
the logged-in user's row. -/
def savePreferences (st : DBState) (userId : Nat) (loc : Str) (minS maxS : Int)
    (conv : Bool) (skillsIn : Str) : DBState :=
  { st with
      users := st.users.map fun u =>
        if u.id == userId then
          { u with location_pref := some loc, min_stipend_pref := some minS,
                   max_stipend_pref := some maxS, placement_conversion_pref := some conv,
                   skills := some skillsIn }
        else u }

/-- Every state-changing user interaction of the system. -/
inductive Op
  | applyTo (studentId oppId : Nat) (freshUid : Str) (now : Nat)
  | decideOn (appUid : Str) (d : Decision)
  | post (posterId : Nat) (title company desc skills dept : Str) (stipend : Int)
      (dur loc : Str) (conv : Bool) (deadline : Option Nat)
      (freshId : Nat) (freshUid : Str) (now : Nat)
  | savePrefs (userId : Nat) (loc : Str) (minS maxS : Int) (conv : Bool) (skillsIn : Str)

/-- State transition of one user interaction. -/
def step (st : DBState) : Op → DBState
  | Op.applyTo sid oid u n => (applyOp st sid oid u n).1
  | Op.decideOn uid d => facultyDecide st uid d
  | Op.post pid t c de sk dp sp du lo cv dl fi fu n =>
      (postOpportunity st pid t c de sk dp sp du lo cv dl fi fu n).1
  | Op.savePrefs uid lo mi ma cv sk => savePreferences st uid lo mi ma cv sk

/-- Auth helper `verify_user(email, password)`: find the first user with the given email,
then check the password against the stored hash via the external verifier
`vfy` (bcrypt in the source); return the user on a match, otherwise `none`. -/
def verify_user (vfy : Str → Str → Bool) (users : List User) (email password : Str) :
    Option User :=
  match users.find? (fun u => u.email == email) with
  | some user => if vfy password user.hashed_password then some user else none
  | none => none

/-- The student of the spec scenario: skills `"python,react,sql"`, location
preference `"Ranchi"`, minimum stipend 10000, maximum stipend unset,
conversion preference on. -/
def demoStudent : User :=
  { id := 1, name := "Rajesh Kumar".toList, email := "student@example.com".toList,
    role := Role.student, department := some ("Computer Science".toList),
    hashed_password := "hash1".toList,
    location_pref := some ("Ranchi".toList),
    min_stipend_pref := some 10000,
    max_stipend_pref := none,
    placement_conversion_pref := some true,
    skills := some ("python,react,sql".toList) }

/-- The seeded opportunity of the spec scenario: required skills
`"React,JS,HTML,CSS"`, stipend 15000, location `"Ranchi"`, conversion offered. -/
def demoOpportunity : Opportunity :=
  { id := 1, uid := "opp-demo0001".toList,
    title := "Frontend Developer Intern".toList,
    company := "Tech Solutions".toList,
    description := "Work on React projects".toList,
    required_skills := "React,JS,HTML,CSS".toList,
    department := "CSE".toList, stipend := 15000,
    duration := "6 months".toList, location := "Ranchi".toList,
    placement_conversion := true,
    application_deadline := some 20251231,
    posted_by := some 2, created_at := 0 }

/-- Basic-latin case folding maps no character other than `','` to `','`. -/
theorem toLower_ne_comma {c : Char} (hc : c ≠ ',') : c.toLower ≠ ',' := by
  intro h
  simp only [Char.toLower] at h
  split at h
  · rename_i hcond
    obtain ⟨h1, h2⟩ := hcond
    obtain ⟨n, hn⟩ : ∃ n, Char.toNat c = n := ⟨Char.toNat c, rfl⟩
    rw [hn] at h h1 h2
    interval_cases n <;> exact absurd h (by decide)
  · exact hc h

/-- Lowercasing before the comma split yields the same chunks as lowercasing
each chunk after the split. -/
theorem splitCommaAux_lower (s : Str) :
    splitCommaAux (lower s) =
      ((splitCommaAux s).1.map Char.toLower, (splitCommaAux s).2.map lower) := by
  induction s with
  | nil => rfl
  | cons c cs ih =>
    by_cases hc : c = ','
    · subst hc
      simp only [lower, List.map_cons, splitCommaAux]
      rw [show Char.toLower ',' = ',' from by decide]
      simp only [if_pos rfl]
      rw [show lower cs = List.map Char.toLower cs from rfl] at ih
      rw [ih]
      rfl
    · have hlc : Char.toLower c ≠ ',' := toLower_ne_comma hc
      simp only [lower, List.map_cons, splitCommaAux]
      rw [if_neg hlc, if_neg hc]
      rw [show lower cs = List.map Char.toLower cs from rfl] at ih
      rw [ih]
      rfl

/-- Splitting `s.lower()` on commas equals lowercasing every chunk of `s.split(",")`. -/
theorem splitComma_lower (s : Str) :
    splitComma (lower s) = (splitComma s).map lower := by
  simp only [splitComma, splitCommaAux_lower, List.map_cons]
  rfl

/-- Inserting an entry keeps the subsequence of any fixed score untouched,
except that the inserted entry lands in front of its own score class. -/
theorem filter_orderedInsert (s : Nat) (x : RankedEntry) (l : List RankedEntry) :
    (List.orderedInsert scoreGE x l).filter (fun y => y.2.1 == s) =
      if x.2.1 = s then x :: l.filter (fun y => y.2.1 == s)
      else l.filter (fun y => y.2.1 == s) := by
  induction l with
  | nil =>
    by_cases hx : x.2.1 = s <;> simp [List.orderedInsert, List.filter_cons, hx]
  | cons b t ih =>
    simp only [List.orderedInsert]
    by_cases hxb : scoreGE x b
    · rw [if_pos hxb]
      by_cases hx : x.2.1 = s <;> simp [List.filter_cons, hx]
    · rw [if_neg hxb]
      have hlt : x.2.1 < b.2.1 := Nat.lt_of_not_le hxb
      by_cases hx : x.2.1 = s
      · have hb : ¬(b.2.1 = s) := by omega
        simp [List.filter_cons, hx, hb, ih]
      · simp [List.filter_cons, hx, ih]

/-- The stable descending sort keeps each equal-score class in its input order. -/
theorem filter_rankSort (s : Nat) (l : List RankedEntry) :
    (List.insertionSort scoreGE l).filter (fun y => y.2.1 == s) =
      l.filter (fun y => y.2.1 == s) := by
  induction l with
  | nil => rfl
  | cons a t ih =>
    simp only [List.insertionSort]
    rw [filter_orderedInsert, ih]
    by_cases hx : a.2.1 = s <;> simp [List.filter_cons, hx]

/-- The entries of the `matches` list with a fixed positive score are exactly
the opportunities of that score, in input-listing order. -/
theorem filter_matchesFor (u : User) (opps : List Opportunity) {s : Nat} (hs : 0 < s) :
    (matchesFor u opps).filter (fun e => e.2.1 == s) =
      (opps.filter (fun o => score u o == s)).map
        (fun o => (o, score u o, skillMatches u o)) := by
  induction opps with
  | nil => rfl
  | cons o t ih =>
    by_cases h0 : 0 < score u o
    · rw [show matchesFor u (o :: t) = (o, score u o, skillMatches u o) :: matchesFor u t from by
        simp [matchesFor, List.filterMap_cons, h0]]
      by_cases hsc : score u o = s
      · simp [List.filter_cons, hsc, ih]
      · simp [List.filter_cons, hsc, ih]
    · have h0' : score u o = 0 := Nat.eq_zero_of_not_pos h0
      rw [show matchesFor u (o :: t) = matchesFor u t from by
        simp [matchesFor, List.filterMap_cons, h0]]
      have hne : ¬(score u o = s) := by omega
      simp [List.filter_cons, hne, ih]

/-- Every entry of the `matches` list carries its opportunity's score and
skill count, and that score is positive. -/
theorem mem_matchesFor {u : User} {opps : List Opportunity} {e : RankedEntry}
    (he : e ∈ matchesFor u opps) :
    e.1 ∈ opps ∧ e.2.1 = score u e.1 ∧ e.2.2 = skillMatches u e.1 ∧ 0 < score u e.1 := by
  simp only [matchesFor, List.mem_filterMap] at he
  obtain ⟨o, ho, hf⟩ := he
  by_cases h0 : 0 < score u o
  · rw [if_pos h0] at hf
    obtain rfl := Option.some.inj hf
    exact ⟨ho, rfl, rfl, h0⟩
  · rw [if_neg h0] at hf
    exact absurd hf (by simp)

/-- C1: for every student preference bundle and opportunity, the total score is
the sum of the four independent predicate points (location, minimum stipend,
maximum stipend, placement conversion; 1 each when true, 0 otherwise) plus the
skill-overlap count, and on the spec scenario (skills `python,react,sql` vs
required `React,JS,HTML,CSS`, location pref `Ranchi` vs `Ranchi`, min stipend
10000 vs 15000, max stipend unset, conversion pref on vs flag on) the total
score is 4. -/
theorem claim_C1_score_decomposition :
    (∀ (u : User) (opp : Opportunity),
        score u opp =
          (if locationPoint u opp then 1 else 0) +
            (if minStipendPoint u opp then 1 else 0) +
            (if maxStipendPoint u opp then 1 else 0) +
            (if conversionPoint u opp then 1 else 0) +
            skillMatches u opp)
    ∧ score demoStudent demoOpportunity = 4 := by
  constructor
  · intro u opp
    simp only [score]
    cases locationPoint u opp <;> cases minStipendPoint u opp <;>
      cases maxStipendPoint u opp <;> cases conversionPoint u opp <;> simp
  · decide

/-- Token sets as worded in the spec: parse the comma-delimited string into
chunks and lowercase each token. -/
def specTokenSet (s : Str) : Finset Str := ((splitComma s).map lower).toFinset

/-- C2: the skill-match count computed by the recommendation engine equals the
cardinality of the intersection of the two case-insensitively lowercased,
comma-delimited token sets parsed from the student's skill string and the
opportunity's required-skills string. -/
theorem claim_C2_skill_overlap (u : User) (opp : Opportunity) :
    skillMatches u opp =
      (specTokenSet (u.skills.getD []) ∩ specTokenSet opp.required_skills).card := by
  have h1 : studentSkills u = specTokenSet (u.skills.getD []) := by
    simp only [studentSkills, tokenSet, specTokenSet, splitComma_lower]
  have h2 : oppSkills opp = specTokenSet opp.required_skills := by
    simp only [oppSkills, tokenSet, specTokenSet, splitComma_lower]
  simp only [skillMatches, h1, h2]

/-- C6: for a fixed opportunity, the skill-match count is monotone
non-decreasing in the student's skill set. -/
theorem claim_C6_skill_monotone (u1 u2 : User) (opp : Opportunity)
    (h : studentSkills u1 ⊆ studentSkills u2) :
    skillMatches u1 opp ≤ skillMatches u2 opp :=
  Finset.card_le_card (Finset.inter_subset_inter h (Finset.Subset.refl _))

/-- Witness for C6 at a concrete pair of skill bundles. -/
theorem claim_C6_witness :
    studentSkills { demoStudent with skills := some ("react".toList) } ⊆
        studentSkills demoStudent
    ∧ skillMatches { demoStudent with skills := some ("react".toList) } demoOpportunity ≤
        skillMatches demoStudent demoOpportunity :=
  ⟨by decide, claim_C6_skill_monotone _ _ _ (by decide)⟩

/-- C10: a stored minimum-stipend preference of 0 (the preferences form's
default) contributes no point for any opportunity and behaves identically to
an unset preference, because the guard tests Python truthiness; likewise for a
maximum-stipend preference of 0. -/
theorem claim_C10_zero_stipend_pref (u : User) (opp : Opportunity) :
    minStipendPoint { u with min_stipend_pref := some 0 } opp = false
    ∧ minStipendPoint { u with min_stipend_pref := none } opp = false
    ∧ score { u with min_stipend_pref := some 0 } opp =
        score { u with min_stipend_pref := none } opp
    ∧ maxStipendPoint { u with max_stipend_pref := some 0 } opp = false
    ∧ maxStipendPoint { u with max_stipend_pref := none } opp = false
    ∧ score { u with max_stipend_pref := some 0 } opp =
        score { u with max_stipend_pref := none } opp := by
  refine ⟨rfl, rfl, ?_, rfl, rfl, ?_⟩ <;>
    simp [score, locationPoint, minStipendPoint, maxStipendPoint, conversionPoint,
      skillMatches, studentSkills]

/-- C4: an opportunity whose total score is 0 for a student is absent from the
ranked recommendation output. -/
theorem claim_C4_zero_score_excluded (u : User) (opps : List Opportunity)
    (opp : Opportunity) (h : score u opp = 0) :
    ∀ s k : Nat, (opp, s, k) ∉ recommend u opps := by
  intro s k hmem
  rw [recommend, List.mem_insertionSort] at hmem
  have hpos : 0 < score u opp := (mem_matchesFor hmem).2.2.2
  omega

/-- A student with no stored preferences and no skills. -/
def zeroPrefUser : User :=
  { id := 5, name := "Blank Student".toList, email := "blank@example.com".toList,
    role := Role.student, hashed_password := "hash5".toList }

/-- Witness for C4: the blank student scores 0 on the demo opportunity, which
therefore does not appear in the ranked output. -/
theorem claim_C4_witness :
    score zeroPrefUser demoOpportunity = 0
    ∧ (demoOpportunity, 3, 1) ∉ recommend zeroPrefUser [demoOpportunity] :=
  ⟨by decide,
    claim_C4_zero_score_excluded zeroPrefUser [demoOpportunity] demoOpportunity (by decide) 3 1⟩

/-- C5: the ranked output is sorted by total score in descending order, and
within each (positive) score class the entries are exactly the opportunities
of that score in input-listing order (stable tie-break). -/
theorem claim_C5_stable_ranking (u : User) (opps : List Opportunity) :
    List.Sorted scoreGE (recommend u opps)
    ∧ ∀ s : Nat, 0 < s →
        (recommend u opps).filter (fun e => e.2.1 == s) =
          (opps.filter (fun o => score u o == s)).map
            (fun o => (o, score u o, skillMatches u o)) := by
  constructor
  · exact List.sorted_insertionSort scoreGE _
  · intro s hs
    rw [recommend, filter_rankSort, filter_matchesFor u opps hs]

/-- Witness for C5 on the demo student and listing, at score class 4. -/
theorem claim_C5_witness :
    List.Sorted scoreGE (recommend demoStudent [demoOpportunity])
    ∧ 0 < 4
    ∧ (recommend demoStudent [demoOpportunity]).filter (fun e => e.2.1 == 4) =
        ([demoOpportunity].filter (fun o => score demoStudent o == 4)).map
          (fun o => (o, score demoStudent o, skillMatches demoStudent o)) :=
  ⟨(claim_C5_stable_ranking demoStudent [demoOpportunity]).1, by decide,
    (claim_C5_stable_ranking demoStudent [demoOpportunity]).2 4 (by decide)⟩

/-- C3: when an application linking the same (student, opportunity) pair is
already stored, the apply operation surfaces the already-applied warning and
leaves the application store unchanged. -/
theorem claim_C3_duplicate_apply (st : DBState) (sid oid : Nat) (freshUid : Str)
    (now : Nat) (h : ∃ a ∈ st.apps, a.student_id = sid ∧ a.opportunity_id = oid) :
    applyOp st sid oid freshUid now = (st, ApplyResult.alreadyApplied) := by
  obtain ⟨a, ha, h1, h2⟩ := h
  have hsome :
      (st.apps.find? (fun a => a.student_id == sid && a.opportunity_id == oid)).isSome :=
    List.find?_isSome.mpr ⟨a, ha, by simp [h1, h2]⟩
  cases hf : st.apps.find? (fun a => a.student_id == sid && a.opportunity_id == oid) with
  | none => rw [hf] at hsome; simp at hsome
  | some b => simp only [applyOp, hf]

/-- An application of the demo student to the demo opportunity. -/
def demoApplication : Application :=
  { uid := "app-demo0001".toList, student_id := 1, opportunity_id := 1 }

/-- A store already holding the demo application. -/
def demoState : DBState :=
  { users := [demoStudent], opps := [demoOpportunity], apps := [demoApplication] }

/-- Witness for C3: re-applying to the demo opportunity warns and changes
nothing. -/
theorem claim_C3_witness :
    (∃ a ∈ demoState.apps, a.student_id = 1 ∧ a.opportunity_id = 1)
    ∧ applyOp demoState 1 1 ("app-demo0002".toList) 5 =
        (demoState, ApplyResult.alreadyApplied) :=
  ⟨⟨demoApplication, by decide, rfl, rfl⟩,
    claim_C3_duplicate_apply demoState 1 1 ("app-demo0002".toList) 5
      ⟨demoApplication, by decide, rfl, rfl⟩⟩

/-- C7: an application whose mentor status is terminal (`approved` or
`rejected`) is left untouched, with all its fields, by every operation of the
system; moreover the faculty decision operation leaves every application whose
mentor status is not `pending` untouched. -/
theorem claim_C7_terminal_closed (st : DBState) (a : Application) (ha : a ∈ st.apps) :
    ((a.mentor_status = some approvedStr ∨ a.mentor_status = some rejectedStr) →
        ∀ op : Op, a ∈ (step st op).apps)
    ∧ (a.mentor_status ≠ some pendingStr →
        ∀ (uid : Str) (d : Decision), a ∈ (facultyDecide st uid d).apps) := by
  have hdec : ∀ (uid : Str) (d : Decision), a.mentor_status ≠ some pendingStr →
      a ∈ (facultyDecide st uid d).apps := by
    intro uid d hne
    have hfix :
        (fun x : Application =>
            if x.mentor_status == some pendingStr && x.uid == uid then decideApp x d
            else x) a = a := by
      have hguard : (a.mentor_status == some pendingStr) = false := by
        simpa using hne
      simp [hguard]
    have hmem := List.mem_map_of_mem
      (fun x : Application =>
        if x.mentor_status == some pendingStr && x.uid == uid then decideApp x d else x) ha
    rw [hfix] at hmem
    exact hmem
  have hterm_ne : (a.mentor_status = some approvedStr ∨ a.mentor_status = some rejectedStr) →
      a.mentor_status ≠ some pendingStr := by
    rintro (h | h) <;> rw [h] <;> decide
  constructor
  · intro hterm op
    cases op with
    | applyTo sid oid u n =>
      show a ∈ ((applyOp st sid oid u n).1).apps
      cases hf : st.apps.find? (fun x => x.student_id == sid && x.opportunity_id == oid) with
      | some b => simp only [applyOp, hf]; exact ha
      | none =>
        simp only [applyOp, hf]
        exact List.mem_append_left _ ha
    | decideOn uid d => exact hdec uid d (hterm_ne hterm)
    | post pid t c de sk dp sp du lo cv dl fi fu n =>
      show a ∈ ((postOpportunity st pid t c de sk dp sp du lo cv dl fi fu n).1).apps
      rw [postOpportunity]
      split <;> exact ha
    | savePrefs uid lo mi ma cv sk => exact ha
  · intro hne uid d
    exact hdec uid d hne

/-- An already-approved application. -/
def decidedApplication : Application :=
  { uid := "app-demo0003".toList, student_id := 1, opportunity_id := 1,
    status := ApplicationStatus.approved, mentor_status := some approvedStr,
    mentor_comments := some ("Approved".toList) }

/-- A store holding the already-approved application. -/
def decidedState : DBState :=
  { users := [demoStudent], opps := [demoOpportunity], apps := [decidedApplication] }

/-- Witness for C7: a further approve press on the decided application leaves
its record in place unchanged. -/
theorem claim_C7_witness :
    decidedApplication ∈ decidedState.apps
    ∧ (decidedApplication.mentor_status = some approvedStr ∨
        decidedApplication.mentor_status = some rejectedStr)
    ∧ decidedApplication ∈
        (step decidedState (Op.decideOn ("app-demo0003".toList) Decision.approve)).apps :=
  ⟨by decide, Or.inl rfl,
    (claim_C7_terminal_closed decidedState decidedApplication (by decide)).1 (Or.inl rfl)
      (Op.decideOn ("app-demo0003".toList) Decision.approve)⟩

/-- C8: the posting operation rejects the submission and persists nothing when
any of title, company, description, required skills, department or location is
empty; on success it appends exactly one opportunity carrying the given
fields, the generated id, uid and timestamp, attributed to the poster. -/
theorem claim_C8_post_validation (st : DBState) (posterId : Nat)
    (title company desc skills dept : Str) (stipend : Int) (dur loc : Str)
    (conv : Bool) (deadline : Option Nat) (freshId : Nat) (freshUid : Str) (now : Nat) :
    ((title = [] ∨ company = [] ∨ desc = [] ∨ skills = [] ∨ dept = [] ∨ loc = []) →
        postOpportunity st posterId title company desc skills dept stipend dur loc conv
            deadline freshId freshUid now = (st, PostResult.validationFailure))
    ∧ ((title ≠ [] ∧ company ≠ [] ∧ desc ≠ [] ∧ skills ≠ [] ∧ dept ≠ [] ∧ loc ≠ []) →
        postOpportunity st posterId title company desc skills dept stipend dur loc conv
            deadline freshId freshUid now =
          ({ st with
              opps := st.opps ++
                [{ id := freshId, uid := freshUid, title := title, company := company,
                   description := desc, required_skills := skills, department := dept,
                   stipend := stipend, duration := dur, location := loc,
                   placement_conversion := conv, application_deadline := deadline,
                   posted_by := some posterId, created_at := now }] },
           PostResult.posted)) := by
  constructor
  · intro h
    have hcond :
        (!title.isEmpty && !company.isEmpty && !desc.isEmpty &&
          !skills.isEmpty && !dept.isEmpty && !loc.isEmpty) = false := by
      rcases h with h | h | h | h | h | h <;> simp [h]
    rw [postOpportunity, hcond]
    rfl
  · rintro ⟨h1, h2, h3, h4, h5, h6⟩
    have hcond :
        (!title.isEmpty && !company.isEmpty && !desc.isEmpty &&
          !skills.isEmpty && !dept.isEmpty && !loc.isEmpty) = true := by
      simp [List.isEmpty_eq_false.mpr h1, List.isEmpty_eq_false.mpr h2,
        List.isEmpty_eq_false.mpr h3, List.isEmpty_eq_false.mpr h4,
        List.isEmpty_eq_false.mpr h5, List.isEmpty_eq_false.mpr h6]
    rw [postOpportunity, hcond]
    rfl

/-- Witness for C8: posting with an empty company field warns and persists
nothing, and the same form with the company filled in appends one row. -/
theorem claim_C8_witness :
    ("Intern".toList = ([] : Str) ∨ ([] : Str) = [] ∨ "Desc".toList = ([] : Str) ∨
        "Go".toList = ([] : Str) ∨ "CSE".toList = ([] : Str) ∨ "Pune".toList = ([] : Str))
    ∧ postOpportunity demoState 2 ("Intern".toList) [] ("Desc".toList) ("Go".toList)
        ("CSE".toList) 5000 ("3 months".toList) ("Pune".toList) false none 7
        ("opp-demo0002".toList) 9 = (demoState, PostResult.validationFailure)
    ∧ postOpportunity demoState 2 ("Intern".toList) ("Acme".toList) ("Desc".toList)
        ("Go".toList) ("CSE".toList) 5000 ("3 months".toList) ("Pune".toList) false none 7
        ("opp-demo0002".toList) 9 =
      ({ demoState with
          opps := demoState.opps ++
            [{ id := 7, uid := "opp-demo0002".toList, title := "Intern".toList,
               company := "Acme".toList, description := "Desc".toList,
               required_skills := "Go".toList, department := "CSE".toList,
               stipend := 5000, duration := "3 months".toList, location := "Pune".toList,
               placement_conversion := false, application_deadline := none,
               posted_by := some 2, created_at := 9 }] },
       PostResult.posted) :=
  ⟨Or.inr (Or.inl rfl),
    (claim_C8_post_validation demoState 2 ("Intern".toList) [] ("Desc".toList)
        ("Go".toList) ("CSE".toList) 5000 ("3 months".toList) ("Pune".toList) false none 7
        ("opp-demo0002".toList) 9).1 (Or.inr (Or.inl rfl)),
    (claim_C8_post_validation demoState 2 ("Intern".toList) ("Acme".toList)
        ("Desc".toList) ("Go".toList) ("CSE".toList) 5000 ("3 months".toList)
        ("Pune".toList) false none 7 ("opp-demo0002".toList) 9).2
      (by refine ⟨?_, ?_, ?_, ?_, ?_, ?_⟩ <;> decide)⟩

/-- C9: credential verification returns the stored user exactly when the email
lookup succeeds and the external hash check accepts the password; a correct
email with a rejected password and an unknown email produce the same outward
result, `none`. -/
theorem claim_C9_verify (vfy : Str → Str → Bool) (users : List User) (email pwd : Str) :
    (∀ u : User,
        verify_user vfy users email pwd = some u ↔
          users.find? (fun x => x.email == email) = some u ∧
            vfy pwd u.hashed_password = true)
    ∧ (∀ u : User, users.find? (fun x => x.email == email) = some u →
        vfy pwd u.hashed_password = false → verify_user vfy users email pwd = none)
    ∧ (users.find? (fun x => x.email == email) = none →
        verify_user vfy users email pwd = none) := by
  cases hf : users.find? (fun x => x.email == email) with
  | none =>
    refine ⟨fun u => ?_, fun u hu => ?_, fun _ => ?_⟩
    · simp [verify_user, hf]
    · exact absurd hu (by simp)
    · simp [verify_user, hf]
  | some w =>
    refine ⟨fun u => ?_, fun u hu hv => ?_, fun hn => ?_⟩
    · cases hv : vfy pwd w.hashed_password with
      | true =>
        simp only [verify_user, hf, hv, if_true]
        constructor
        · rintro h
          obtain rfl := Option.some.inj h
          exact ⟨rfl, hv⟩
        · rintro ⟨h, _⟩
          exact h.symm ▸ rfl
      | false =>
        simp only [verify_user, hf, hv, if_false]
        constructor
        · rintro h
          exact absurd h (by simp)
        · rintro ⟨h, hvu⟩
          obtain rfl := Option.some.inj h
          exact absurd (hv.symm.trans hvu) (by simp)
    · obtain rfl := Option.some.inj hu
      simp [verify_user, hf, hv]
    · exact absurd hn (by simp)

/-- Witness for C9: with an equality-test verifier, a wrong password on the
demo student's email yields `none`. -/
theorem claim_C9_witness :
    [demoStudent].find?
        (fun x => x.email == ("student@example.com".toList)) = some demoStudent
    ∧ (fun p h : Str => p == h) ("wrong".toList) demoStudent.hashed_password = false
    ∧ verify_user (fun p h : Str => p == h) [demoStudent]
        ("student@example.com".toList) ("wrong".toList) = none :=
  ⟨by decide, by decide,
    (claim_C9_verify (fun p h : Str => p == h) [demoStudent]
        ("student@example.com".toList) ("wrong".toList)).2.1 demoStudent
      (by decide) (by decide)⟩

end CampusConnect
